import Mathlib

/-!
Verification development for the Migkit data-migration repository.

The definitions below are a shallow embedding of the Python sources:
  * src/src/framework.py   (phase registry and executor)
  * src/src/data_migration.py (row cleaning, batch classification, loader)
  * src/src/validators.py  (record validation)

Python values are modelled by `PyVal` (with `pyNone` for Python `None` and
`pyNaN` for float nan); a pandas row / record dict is an association list
from field name to `PyVal`.  Machine floats are modelled by rationals: the
operations involved (comparison, absolute value, capping) are exact on
IEEE doubles for the non-nan values they are applied to.  Fallible code
returns `Except`; mutation of Python lists (such as the `invalid_rows`
accumulator) is modelled by explicit state passing.  Wall-clock reads
(`datetime.now()`) are modelled by an explicit integer parameter `now`.
-/

namespace Migkit

universe u

/-! ## framework.py : phase registry and executor -/

/-- A registered phase unit (a Python callable).  The executor calls a unit
either with no arguments (`self.phases[phase_name]()`, modelled by argument
`none`) or with one argument (`self.phases[phase_name](data)`, modelled by
`some d`).  A Python value is `Option α`, where `none` is Python `None`. -/
def PhaseFn (α : Type u) : Type u := Option (Option α) → Option α

/-- The registry `self.phases`: a Python dict from the phase-name string to
the registered callable. -/
def Registry (α : Type u) : Type u := String → Option (PhaseFn α)

/-- The empty dict created by `DataMigrationFramework.__init__`. -/
def Registry.empty {α : Type u} : Registry α := fun _ => none

/-- Model of `register_phase`: `self.phases[func.phase] = func`.  Dict assignment:
a later registration for the same key overwrites the earlier one. -/
def registerPhase {α : Type u} (reg : Registry α) (phase_id : String)
    (f : PhaseFn α) : Registry α :=
  fun k => if k = phase_id then some f else reg k

/-- Performing a sequence of `register_phase` calls, in order, starting
from the empty registry. -/
def registerAll {α : Type u} (regs : List (String × PhaseFn α)) : Registry α :=
  regs.foldl (fun m p => registerPhase m p.1 p.2) Registry.empty

/-- The `ValueError` raised by `run` for an unregistered phase; the phase
name is interpolated into its message, so the error names the phase. -/
inductive RunErr where
  | phaseNotRegistered (phase_id : String)
deriving DecidableEq

/-- One observed phase invocation: the phase name and the argument the
callable was invoked with (`none` means it was called with no arguments). -/
structure Call (α : Type u) where
  phase_id : String
  arg : Option (Option α)
deriving DecidableEq

/-- The loop of `DataMigrationFramework.run` over the remaining phase
names.  `data` is the threaded Python value (initially `None`); `calls`
accumulates the trace of phase invocations (the observable side effects).
When `data is None` the phase is called with no arguments, otherwise it is
called with `data`; an unregistered phase raises immediately. -/
def runFrom {α : Type u} (reg : Registry α) :
    List String → Option α → List (Call α) →
    List (Call α) × Except RunErr (Option α)
  | [], data, calls => (calls, .ok data)
  | phase_id :: rest, data, calls =>
    match reg phase_id with
    | some f =>
      match data with
      | none => runFrom reg rest (f none) (calls ++ [⟨phase_id, none⟩])
      | some v =>
          runFrom reg rest (f (some (some v))) (calls ++ [⟨phase_id, some (some v)⟩])
    | none => (calls, .error (.phaseNotRegistered phase_id))

/-- The predefined execution order of `run`. -/
def predefinedOrder : List String := ["Extract", "Transform", "Load"]

/-- Model of `DataMigrationFramework.run` (src/src/framework.py): execute the phases
in the predefined order starting from `data = None`, returning the trace of
invocations together with the returned data or the raised error. -/
def run {α : Type u} (reg : Registry α) :
    List (Call α) × Except RunErr (Option α) :=
  runFrom reg predefinedOrder none []

/-- The last registration stored under a key, mirroring dict semantics of
repeated assignment. -/
def findLastKey {β : Type u} : List (String × β) → String → Option β
  | [], _ => none
  | p :: rest, k =>
    match findLastKey rest k with
    | some g => some g
    | none => if p.1 = k then some p.2 else none

/-! ## Records: Python cell values and row dicts -/

/-- A Python cell value as it appears in a pandas row or a record dict.
`pyNone` is Python `None`; `pyNaN` is the float nan produced by pandas for
missing numeric data; timestamps are integer instants. -/
inductive PyVal where
  | pyNone
  | pyNaN
  | pyInt (n : ℤ)
  | pyFloat (q : ℚ)
  | pyStr (s : String)
  | pyTime (t : ℤ)
deriving DecidableEq

/-- One record (a pandas row / Python dict): an association list from field
name to value.  Key lookup finds the first matching entry. -/
def Record : Type := List (String × PyVal)

instance : DecidableEq Record :=
  inferInstanceAs (DecidableEq (List (String × PyVal)))

/-- Python `k in row`. -/
def hasKey (r : Record) (k : String) : Bool := r.any (fun p => p.1 = k)

/-- Python `row[k]` (defaulting to `None` for an absent key; every use in
the embedding is guarded by `hasKey`). -/
def getD (r : Record) (k : String) : PyVal :=
  (((r.find? (fun p => p.1 = k)).map (fun p => p.2)).getD .pyNone)

/-- Python `row[k] = v` for a key already present: replace the value of the
first entry with that key. -/
def setVal : Record → String → PyVal → Record
  | [], _, _ => []
  | p :: rest, k, v => if p.1 = k then (k, v) :: rest else p :: setVal rest k v

/-- Model of `pd.isna`: true for `None` and for nan. -/
def isna : PyVal → Bool
  | .pyNone => true
  | .pyNaN => true
  | _ => false

/-- The numeric content of a cell, when it is an int or a float. -/
def asNum : PyVal → Option ℚ
  | .pyInt n => some (n : ℚ)
  | .pyFloat q => some q
  | _ => none

/-- Python `abs` on a numeric cell, preserving int/float kind. -/
def pyAbs : PyVal → PyVal
  | .pyInt n => .pyInt |n|
  | .pyFloat q => .pyFloat |q|
  | v => v

/-- Python `str(...)` as used for the detail-data message. -/
def pyRepr : PyVal → String
  | .pyNone => "None"
  | .pyNaN => "nan"
  | .pyInt n => toString n
  | .pyFloat q => toString q
  | .pyStr s => s
  | .pyTime t => toString t

/-! ## validators.py : the pydantic `SourceRecord` model -/

/-- The character class of the `column1_must_not_contain_special_chars`
validator, written by character code to keep the source's regex class
verbatim: `! @ # $ % ^ & * ( ) _ + = [ ] { } | \ : ; " ' < > , . ? / ~`
and the backquote. -/
def specialChars : List Char :=
  [33, 64, 35, 36, 37, 94, 38, 42, 40, 41, 95, 43, 61, 91, 93, 123, 125,
   124, 92, 58, 59, 34, 39, 60, 62, 44, 46, 63, 47, 126, 96].map Char.ofNat

/-- The `column1` field constraints of `SourceRecord`: a required string,
`min_length=1`, `max_length=100`, containing no character of the
disallowed class.  A non-string value (in particular nan) fails. -/
def column1Ok (v : PyVal) : Bool :=
  match v with
  | .pyStr s =>
      decide (1 ≤ s.length) && decide (s.length ≤ 100) &&
        s.toList.all (fun c => !(specialChars.contains c))
  | _ => false

/-- The `id` field of `SourceRecord`: a required integer with `gt=0`. -/
def idOk (d : Record) : Bool :=
  hasKey d "id" &&
    (match getD d "id" with
     | .pyInt n => decide (0 < n)
     | _ => false)

/-- The optional `column2` field: `None` or a string of length at most
200. -/
def column2Ok (d : Record) : Bool :=
  if hasKey d "column2" then
    match getD d "column2" with
    | .pyNone => true
    | .pyStr s => decide (s.length ≤ 200)
    | _ => false
  else true

/-- The optional `column3` field together with the
`column3_must_be_in_range` validator: absent or `None` passes; a numeric
value must lie in the closed range 0..1000.  A nan float passes, since
both comparisons `v < 0` and `v > 1000` are false on nan. -/
def column3Ok (d : Record) : Bool :=
  if hasKey d "column3" then
    match getD d "column3" with
    | .pyNone => true
    | .pyNaN => true
    | .pyInt n => decide (0 ≤ (n : ℚ)) && decide ((n : ℚ) ≤ 1000)
    | .pyFloat q => decide (0 ≤ q) && decide (q ≤ 1000)
    | _ => false
  else true

/-- The optional `created_at` field together with the
`check_created_at_not_future` validator: a timestamp must not be later
than the wall clock read at the moment of the check. -/
def createdAtOk (d : Record) (now : ℤ) : Bool :=
  if hasKey d "created_at" then
    match getD d "created_at" with
    | .pyNone => true
    | .pyTime t => decide (t ≤ now)
    | _ => false
  else true

/-- Construction `SourceRecord(**record_dict)` succeeds: the conjunction of
the declared pydantic field constraints and validators of `SourceRecord`
(validators.py).  `now` is the wall clock sampled by the validation. -/
def sourceRecordOk (d : Record) (now : ℤ) : Bool :=
  idOk d && (hasKey d "column1" && column1Ok (getD d "column1")) &&
    column2Ok d && column3Ok d && createdAtOk d now

/-! ## data_migration.py : validate_and_clean_row and the classify loop -/

/-- The `column2` cleaning block of `validate_and_clean_row`: an optional
field that is present but missing is replaced by the default string. -/
def cleanColumn2 (r : Record) : Record :=
  if hasKey r "column2" && isna (getD r "column2") then
    setVal r "column2" (.pyStr "N/A")
  else r

/-- The `column3` cleaning block of `validate_and_clean_row`: a present but
missing numeric value becomes 0; a negative value is replaced by its
absolute value; a value over 1000 is capped at 1000 (an elif chain, so the
absolute value of a negative input is never re-capped).  A present
non-numeric, non-missing value would raise a TypeError at the comparison
in the source; it is left unchanged here and never exercised. -/
def cleanColumn3 (r : Record) : Record :=
  if hasKey r "column3" then
    if isna (getD r "column3") then setVal r "column3" (.pyInt 0)
    else
      match asNum (getD r "column3") with
      | some q =>
        if q < 0 then setVal r "column3" (pyAbs (getD r "column3"))
        else if 1000 < q then setVal r "column3" (.pyInt 1000)
        else r
      | none => r
  else r

/-- The keys kept for the pydantic check inside `validate_and_clean_row`. -/
def recordKeys : List String := ["id", "column1", "column2", "column3", "created_at"]

/-- The comprehension building `record_dict` from the cleaned row. -/
def filterKeys (r : Record) : Record :=
  r.filter (fun p => recordKeys.contains p.1)

/-- Model of `validate_and_clean_row` (data_migration.py).  The Python function
mutates the caller's `invalid_rows` list; that list is threaded explicitly.
Returns `((is_valid, cleaned_row-or-None), updated invalid_rows)`.
Control flow of the source: a present-but-missing required `column1`
appends the index and clears `is_valid` but does not stop processing;
the pydantic check runs whenever both `id` and `column1` keys are present
and appends the index again on failure. -/
def validate_and_clean_row (row : Record) (invalid_rows : List Nat)
    (row_index : Nat) (now : ℤ) : (Bool × Option Record) × List Nat :=
  let flag1 : Bool := hasKey row "column1" && isna (getD row "column1")
  let inv1 := if flag1 then invalid_rows ++ [row_index] else invalid_rows
  let valid1 := !flag1
  let cleaned := cleanColumn3 (cleanColumn2 row)
  let dictOk : Bool :=
    if hasKey cleaned "id" && hasKey cleaned "column1" then
      sourceRecordOk (filterKeys cleaned) now
    else true
  let inv2 := if dictOk then inv1 else inv1 ++ [row_index]
  let valid2 := valid1 && dictOk
  ((valid2, if valid2 then some cleaned else none), inv2)

/-- The row-classification loop of `transform_data_with_pandas` (Step 1):
`for i, row in df.iterrows()` with the default positional index, appending
each valid cleaned row to `cleaned_rows` and collecting `invalid_rows`. -/
def classifyFrom (now : ℤ) :
    List Record → Nat → List Nat → List Record → List Record × List Nat
  | [], _, inv, acc => (acc, inv)
  | r :: rest, i, inv, acc =>
    match validate_and_clean_row r inv i now with
    | ((true, some c), inv1) => classifyFrom now rest (i + 1) inv1 (acc ++ [c])
    | ((_, _), inv1) => classifyFrom now rest (i + 1) inv1 acc

/-- Classify a batch: the accepted cleaned rows and the collected invalid
indices, as produced by the loop of `transform_data_with_pandas`. -/
def classifyRows (rows : List Record) (now : ℤ) : List Record × List Nat :=
  classifyFrom now rows 0 [] []

/-! ## validators.py : validate_transformed_row -/

/-- The outcome dict returned by `validate_transformed_row`. -/
structure RowValidation where
  valid : Bool
  errors : List String
deriving DecidableEq

/-- Model of `validate_transformed_row` (validators.py): required `id` (int) and
`column1` (str) fields, plus a range check on an optional numeric
`column3_transformed`.  All checks are evaluated; the outcome aggregates
every failure.  A nan value passes the range check (both comparisons are
false on nan); a value `float(...)` cannot convert raises and is reported
as non-numeric. -/
def validate_transformed_row (row : Record) : RowValidation :=
  let e1 : List String :=
    if hasKey row "id" &&
        (match getD row "id" with | .pyInt _ => true | _ => false) then []
    else ["Missing or invalid \x27id\x27 field"]
  let e2 : List String :=
    if hasKey row "column1" &&
        (match getD row "column1" with | .pyStr _ => true | _ => false) then []
    else ["Missing or invalid \x27column1\x27 field"]
  let e3 : List String :=
    if hasKey row "column3_transformed" then
      match getD row "column3_transformed" with
      | .pyNaN => []
      | .pyInt n =>
          if (n : ℚ) < 0 ∨ 2000 < (n : ℚ) then
            ["column3_transformed is out of valid range (0-2000)"]
          else []
      | .pyFloat q =>
          if q < 0 ∨ 2000 < q then
            ["column3_transformed is out of valid range (0-2000)"]
          else []
      | _ => ["column3_transformed is not a valid numeric value"]
    else []
  let errs := e1 ++ e2 ++ e3
  { valid := errs.isEmpty, errors := errs }

/-! ## data_migration.py : save_data_to_target (the Load phase) -/

/-- External outcomes of the destination I/O performed by
`save_data_to_target`: whether the pandas bulk `to_sql` raises, and
whether each statement of the ORM session block raises. -/
structure LoadEnv where
  bulkOk : Bool
  failTruncate : Bool
  failCommitTruncate : Bool
  failCommitInsert : Bool
deriving DecidableEq

/-- Durable destination state: the rows of `target_table` and the
`detail_data` column of `target_detail`. -/
structure DB where
  target_table : List Record
  target_detail : List String
deriving DecidableEq

/-- The result dict returned by `save_data_to_target`; absent keys of the
three return dicts of the source are `none`. -/
structure LoadResult where
  success : Bool
  reason : Option String := none
  error : Option String := none
  records_processed : Option Nat := none
  records_with_errors : Option Nat := none
  target_instances : Option Nat := none
  detail_instances : Option Nat := none
deriving DecidableEq

/-- The per-record structural validation of the ORM path: `id` present and
an int, `column1` present and a str; the raised-and-caught `ValueError`
message otherwise. -/
def structError (r : Record) : Option String :=
  if !(hasKey r "id" &&
      (match getD r "id" with | .pyInt _ => true | _ => false)) then
    some "Missing or invalid ID field"
  else if !(hasKey r "column1" &&
      (match getD r "column1" with | .pyStr _ => true | _ => false)) then
    some "Missing or invalid column1 field"
  else none

/-- The `for i, record in enumerate(records)` loop splitting the batch into
`valid_records` (in order) and `load_errors` (index and message). -/
def partitionGo : List Record → Nat → List Record → List (Nat × String) →
    List Record × List (Nat × String)
  | [], _, valid, errs => (valid, errs)
  | r :: rest, i, valid, errs =>
    match structError r with
    | none => partitionGo rest (i + 1) (valid ++ [r]) errs
    | some e => partitionGo rest (i + 1) valid (errs ++ [(i, e)])

/-- Split `records` into structurally valid records and load errors. -/
def partitionRecords (rs : List Record) : List Record × List (Nat × String) :=
  partitionGo rs 0 [] []

/-- Model of `TargetModel.from_source` (models.py): builds the target row from the
record by direct key access; an absent key raises a KeyError. -/
def from_source (r : Record) (migrated_at : ℤ) : Except String Record :=
  if hasKey r "id" && hasKey r "column1" && hasKey r "column2" &&
      hasKey r "column3_transformed" then
    .ok [("id", getD r "id"), ("column1", getD r "column1"),
         ("column2", getD r "column2"),
         ("column3_transformed", getD r "column3_transformed"),
         ("migrated_at", .pyTime migrated_at)]
  else .error "KeyError"

/-- The instance-building loop of the ORM block: one `TargetModel` per
valid record, and one `TargetDetailModel` per valid record carrying a
`category` key.  The first `from_source` failure aborts the block. -/
def buildInstances : List Record → ℤ → Except String (List Record × List String)
  | [], _ => .ok ([], [])
  | r :: rest, now =>
    match from_source r now with
    | .error e => .error e
    | .ok tgt =>
      match buildInstances rest now with
      | .error e => .error e
      | .ok (ts, ds) =>
          .ok (tgt :: ts,
            (if hasKey r "category" then ["Category: " ++ pyRepr (getD r "category")]
             else []) ++ ds)

/-- The `with get_session(target_engine) as session` block of
`save_data_to_target`.  The source executes `TRUNCATE TABLE target_detail`
and commits it, then builds the instances, adds them and commits again:
the truncate is committed in its own transaction before any write.  On an
exception the session is closed by the with-block, rolling back only the
pending (uncommitted) changes; the enclosing try catches the exception.
Returns the durable database after the block and the outcome (lengths of
`target_instances` and `detail_instances` on success). -/
def ormBlock (valid_records : List Record) (env : LoadEnv) (db : DB)
    (now : ℤ) : DB × Except String (Nat × Nat) :=
  if env.failTruncate then (db, .error "truncate failed")
  else if env.failCommitTruncate then (db, .error "commit failed")
  else
    let db1 : DB := { db with target_detail := [] }
    match buildInstances valid_records now with
    | .error e => (db1, .error e)
    | .ok (ts, ds) =>
      if env.failCommitInsert then (db1, .error "commit failed")
      else
        ({ target_table := db1.target_table ++ ts,
           target_detail := db1.target_detail ++ ds },
         .ok (ts.length, ds.length))

/-- Model of `save_data_to_target` (data_migration.py).  The bulk `to_sql` with
`if_exists=replace` replaces `target_table`; its exception is caught and
control always continues into the per-record ORM path.  `.ok` models a
normal Python return (the function catches every internal exception);
`.error` would model an exception propagating to the caller, and no branch
produces one. -/
def save_data_to_target (transformed_data : List Record) (env : LoadEnv)
    (db : DB) (now : ℤ) : Except String (DB × LoadResult) :=
  if transformed_data.isEmpty then
    .ok (db, { success := false, reason := some "No data to save" })
  else
    let db1 := if env.bulkOk then { db with target_table := transformed_data } else db
    let vr := partitionRecords transformed_data
    let orm := ormBlock vr.1 env db1 now
    match orm.2 with
    | .error e =>
        .ok (orm.1,
          { success := false, error := some e,
            records_processed := some vr.1.length,
            records_with_errors := some vr.2.length })
    | .ok (nt, nd) =>
        .ok (orm.1,
          { success := true,
            records_processed := some vr.1.length,
            records_with_errors := some vr.2.length,
            target_instances := some nt, detail_instances := some nd })

/-! ## Concrete values used by the claim theorems -/

/-- A well-formed row shape with a numeric `column3`, used to state the
clamping behaviour. -/
def mkRow (n : ℤ) (s : String) (q : ℚ) : Record :=
  [("id", .pyInt n), ("column1", .pyStr s), ("column3", .pyFloat q)]

/-- The same row shape with an arbitrary `column3` cell. -/
def mkRowVal (n : ℤ) (s : String) (v : PyVal) : Record :=
  [("id", .pyInt n), ("column1", .pyStr s), ("column3", v)]

/-- An Extract unit returning the value 3. -/
def wE : PhaseFn Nat := fun _ => some 3

/-- A Transform unit adding one to a passed value. -/
def wT : PhaseFn Nat := fun d =>
  match d with
  | some (some n) => some (n + 1)
  | _ => none

/-- A Load unit doubling a passed value. -/
def wL : PhaseFn Nat := fun d =>
  match d with
  | some (some n) => some (n * 2)
  | _ => none

/-- A registry holding only an Extract unit. -/
def regOnlyExtract : Registry Nat :=
  registerAll [("Extract", (fun _ => some 1 : PhaseFn Nat))]

/-- An Extract unit returning Python `None`. -/
def wENone : PhaseFn Nat := fun _ => none

/-- A Transform unit returning Python `None` when called with no
arguments. -/
def wTNone : PhaseFn Nat := fun _ => none

/-- A Load unit returning 5 whatever it is called with. -/
def wLFive : PhaseFn Nat := fun _ => some 5

/-- A registry for exercising the calling convention on `None` data. -/
def regNone : Registry Nat :=
  registerAll [("Extract", wENone), ("Transform", wTNone), ("Load", wLFive)]

/-- A transformed record that passes the structural load checks and
carries a category. -/
def recLoad : Record :=
  [("id", .pyInt 1), ("column1", .pyStr "A"), ("column2", .pyNone),
   ("column3_transformed", .pyInt 4), ("category", .pyStr "low")]

/-- The target instance `from_source` builds from `recLoad` at instant 0. -/
def tgtLoad : Record :=
  [("id", .pyInt 1), ("column1", .pyStr "A"), ("column2", .pyNone),
   ("column3_transformed", .pyInt 4), ("migrated_at", .pyTime 0)]

/-- An environment where every destination operation succeeds. -/
def envAllOk : LoadEnv :=
  { bulkOk := true, failTruncate := false, failCommitTruncate := false,
    failCommitInsert := false }

/-- An environment where the final insert commit of the ORM block fails
(after the truncate has already been committed). -/
def envInsertFail : LoadEnv :=
  { bulkOk := false, failTruncate := false, failCommitTruncate := false,
    failCommitInsert := true }

/-- An environment where the session block fails at the truncate itself. -/
def envTruncateFail : LoadEnv :=
  { bulkOk := false, failTruncate := true, failCommitTruncate := false,
    failCommitInsert := false }

/-- A destination that already holds one dependent detail row. -/
def dbOld : DB := { target_table := [], target_detail := ["old"] }

/-- A record carrying a timestamp, for the wall-clock dependence of the
validator. -/
def rowC9 : Record :=
  [("id", .pyInt 1), ("column1", .pyStr "OK"), ("created_at", .pyTime 10)]

/-- A one-record batch whose single row has a present-but-nan required
`column1`. -/
def batchNanColumn1 : List Record :=
  [[("id", .pyInt 1), ("column1", .pyNaN)]]

/-- A record whose required `column1` key is entirely absent. -/
def rowNoColumn1 : Record := [("id", .pyInt 1)]

/-! ## Executor lemmas -/

/-- Running past an empty phase list returns the threaded data. -/
theorem runFrom_nil {α : Type u} (reg : Registry α) (data : Option α)
    (calls : List (Call α)) : runFrom reg [] data calls = (calls, .ok data) := rfl

/-- An unregistered phase raises at once, whatever the threaded data. -/
theorem runFrom_missing {α : Type u} (reg : Registry α) (p : String)
    (rest : List String) (data : Option α) (calls : List (Call α))
    (h : reg p = none) :
    runFrom reg (p :: rest) data calls =
      (calls, .error (.phaseNotRegistered p)) := by
  cases data <;> simp [runFrom, h]

/-- A registered phase is called with no arguments when the threaded data
is `None`. -/
theorem runFrom_step_none {α : Type u} (reg : Registry α) (p : String)
    (rest : List String) (calls : List (Call α)) (f : PhaseFn α)
    (h : reg p = some f) :
    runFrom reg (p :: rest) none calls =
      runFrom reg rest (f none) (calls ++ [⟨p, none⟩]) := by
  simp [runFrom, h]

/-- A registered phase is called with the threaded data when it is not
`None`. -/
theorem runFrom_step_some {α : Type u} (reg : Registry α) (p : String)
    (rest : List String) (calls : List (Call α)) (f : PhaseFn α) (v : α)
    (h : reg p = some f) :
    runFrom reg (p :: rest) (some v) calls =
      runFrom reg rest (f (some (some v))) (calls ++ [⟨p, some (some v)⟩]) := by
  simp [runFrom, h]

/-- Folding `register_phase` over a registration list looks up the last
registration for the key, falling back to the starting registry. -/
theorem foldl_register_apply {α : Type u} (regs : List (String × PhaseFn α))
    (m : Registry α) (k : String) :
    (regs.foldl (fun m p => registerPhase m p.1 p.2) m) k =
      (match findLastKey regs k with
       | some f => some f
       | none => m k) := by
  induction regs generalizing m with
  | nil => rfl
  | cons p rest ih =>
    simp only [List.foldl_cons, findLastKey, ih]
    cases hfl : findLastKey rest k with
    | some g => rfl
    | none =>
      by_cases h : p.1 = k
      · simp [registerPhase, h]
      · have h2 : ¬ k = p.1 := fun hh => h hh.symm
        simp [registerPhase, h, h2]

/-- A registry built by a registration sequence, applied to a key. -/
theorem registerAll_apply {α : Type u} (regs : List (String × PhaseFn α))
    (k : String) :
    registerAll regs k =
      (match findLastKey regs k with
       | some f => some f
       | none => none) :=
  foldl_register_apply regs Registry.empty k

/-- For registration sequences without duplicate phase identities, the
stored registration for each key is permutation invariant. -/
theorem findLastKey_perm {β : Type u} {l₁ l₂ : List (String × β)}
    (h : l₁.Perm l₂) (hnd : l₁.Pairwise (fun a b => a.1 ≠ b.1)) (k : String) :
    findLastKey l₁ k = findLastKey l₂ k := by
  induction h with
  | nil => rfl
  | cons x h ih =>
    rw [List.pairwise_cons] at hnd
    simp only [findLastKey, ih hnd.2]
  | swap a b l =>
    rw [List.pairwise_cons] at hnd
    have hba : b.1 ≠ a.1 := hnd.1 a (by simp)
    simp only [findLastKey]
    cases hl : findLastKey l k with
    | some g => rfl
    | none =>
      by_cases hak : a.1 = k
      · by_cases hbk : b.1 = k
        · exact absurd (hbk.trans hak.symm) hba
        · simp [hak, hbk]
      · by_cases hbk : b.1 = k
        · simp [hak, hbk]
        · simp [hak, hbk]
  | trans h1 h2 ih1 ih2 =>
    rw [ih1 hnd,
        ih2 (((List.Perm.pairwise_iff (fun hab => Ne.symm hab) h1).mp) hnd)]

/-- Permutation invariance of the whole registry for duplicate-free
registration sequences. -/
theorem registerAll_perm {α : Type u} {l₁ l₂ : List (String × PhaseFn α)}
    (h : l₁.Perm l₂) (hnd : l₁.Pairwise (fun a b => a.1 ≠ b.1)) (k : String) :
    registerAll l₁ k = registerAll l₂ k := by
  rw [registerAll_apply, registerAll_apply, findLastKey_perm h hnd]

/-- Claim C1: for every registry in which all three phases are registered
(by the three registration calls in any order), `run` executes Extract,
Transform, Load in that fixed order, invoking Extract with no input and
Transform and Load each with exactly the value returned by the preceding
phase, and returns the value returned by Load; the registration order does
not affect this.  The hypotheses `hE` and `hT` state the contract that a
phase returns a batch value (not Python `None`); the `None` case follows
the calling convention settled by claim C10. -/
theorem executor_threads_in_order {α : Type u} (e t l : PhaseFn α)
    (regs : List (String × PhaseFn α))
    (hperm : regs.Perm [("Extract", e), ("Transform", t), ("Load", l)])
    (vE vT : α) (hE : e none = some vE) (hT : t (some (some vE)) = some vT) :
    run (registerAll regs) =
      ([⟨"Extract", none⟩, ⟨"Transform", some (some vE)⟩,
        ⟨"Load", some (some vT)⟩],
       .ok (l (some (some vT)))) := by
  have hnd : ([("Extract", e), ("Transform", t), ("Load", l)]).Pairwise
      (fun a b => a.1 ≠ b.1) := by
    refine List.Pairwise.cons ?_ (List.Pairwise.cons ?_ (List.pairwise_singleton _ _))
    · intro x hx
      rcases List.mem_cons.mp hx with rfl | hx2
      · exact (by decide : ("Extract" : String) ≠ "Transform")
      · rcases List.mem_singleton.mp hx2 with rfl
        exact (by decide : ("Extract" : String) ≠ "Load")
    · intro x hx
      rcases List.mem_singleton.mp hx with rfl
      exact (by decide : ("Transform" : String) ≠ "Load")
  have hndl : regs.Pairwise (fun a b => a.1 ≠ b.1) :=
    (List.Perm.pairwise_iff (fun hab => Ne.symm hab) hperm).mpr hnd
  have hlook : ∀ k, registerAll regs k =
      registerAll [("Extract", e), ("Transform", t), ("Load", l)] k :=
    fun k => registerAll_perm hperm hndl k
  have h1 : registerAll regs "Extract" = some e := by rw [hlook]; rfl
  have h2 : registerAll regs "Transform" = some t := by rw [hlook]; rfl
  have h3 : registerAll regs "Load" = some l := by rw [hlook]; rfl
  show runFrom (registerAll regs) ["Extract", "Transform", "Load"] none [] = _
  rw [runFrom_step_none _ _ _ _ _ h1, hE, runFrom_step_some _ _ _ _ _ _ h2, hT,
      runFrom_step_some _ _ _ _ _ _ h3, runFrom_nil]
  rfl

/-- Witness for C1 at a concrete registry, registered in the order
Transform, Extract, Load. -/
theorem executor_threads_in_order_witness :
    run (registerAll [("Transform", wT), ("Extract", wE), ("Load", wL)]) =
      ([⟨"Extract", none⟩, ⟨"Transform", some (some 3)⟩,
        ⟨"Load", some (some 4)⟩],
       .ok (some 8)) :=
  executor_threads_in_order wE wT wL
    [("Transform", wT), ("Extract", wE), ("Load", wL)]
    (List.Perm.swap ("Extract", wE) ("Transform", wT) [("Load", wL)])
    3 4 rfl rfl

/-- Claim C2: whenever some phase among Extract, Transform, Load is
unregistered, `run` raises a `ValueError` naming an unregistered phase;
in particular, a registry holding only Transform and Load raises an error
naming Extract with an empty invocation trace, so no phase side effect
occurs. -/
theorem executor_missing_phase {α : Type u} (reg : Registry α)
    (hmiss : ¬ ∀ p ∈ predefinedOrder, (reg p).isSome = true) :
    (∃ p, (run reg).2 = .error (.phaseNotRegistered p) ∧ reg p = none) ∧
    (∀ (t l : PhaseFn α),
      run (registerAll [("Transform", t), ("Load", l)]) =
        ([], .error (.phaseNotRegistered "Extract"))) := by
  constructor
  · cases hE : reg "Extract" with
    | none =>
      refine ⟨"Extract", ?_, hE⟩
      show (runFrom reg ["Extract", "Transform", "Load"] none []).2 = _
      rw [runFrom_missing _ _ _ _ _ hE]
    | some e =>
      cases hT : reg "Transform" with
      | none =>
        refine ⟨"Transform", ?_, hT⟩
        show (runFrom reg ["Extract", "Transform", "Load"] none []).2 = _
        rw [runFrom_step_none _ _ _ _ _ hE, runFrom_missing _ _ _ _ _ hT]
      | some t =>
        cases hL : reg "Load" with
        | none =>
          refine ⟨"Load", ?_, hL⟩
          show (runFrom reg ["Extract", "Transform", "Load"] none []).2 = _
          rw [runFrom_step_none _ _ _ _ _ hE]
          cases hd : e none with
          | none =>
            rw [runFrom_step_none _ _ _ _ _ hT, runFrom_missing _ _ _ _ _ hL]
          | some v =>
            rw [runFrom_step_some _ _ _ _ _ _ hT, runFrom_missing _ _ _ _ _ hL]
        | some l =>
          exact absurd
            (fun p hp => by
              rcases List.mem_cons.mp hp with rfl | hp2
              · rw [hE]; rfl
              rcases List.mem_cons.mp hp2 with rfl | hp3
              · rw [hT]; rfl
              rcases List.mem_singleton.mp hp3 with rfl
              rw [hL]; rfl)
            hmiss
  · intro t l
    have hE : registerAll [("Transform", t), ("Load", l)] "Extract" = none := rfl
    show runFrom _ ["Extract", "Transform", "Load"] none [] = _
    rw [runFrom_missing _ _ _ _ _ hE]

/-- Witness for C2 at a registry holding only an Extract unit, and a
registry holding only concrete Transform and Load units. -/
theorem executor_missing_phase_witness :
    (run regOnlyExtract).2 = .error (.phaseNotRegistered "Transform") ∧
    regOnlyExtract "Transform" = none ∧
    run (registerAll [("Transform", wT), ("Load", wL)]) =
      ([], .error (.phaseNotRegistered "Extract")) :=
  ⟨rfl, rfl, (executor_missing_phase regOnlyExtract (by decide)).2 wT wL⟩

/-- Claim C10: the executor decides a phase's calling convention by
whether the threaded value is `None`, not by the phase's position: when
Extract returns `None`, Transform is invoked with no arguments instead of
being passed `None`, and when Transform (so invoked) also returns `None`,
Load is likewise invoked with no arguments, while a non-`None` Transform
result is passed to Load as an argument. -/
theorem executor_call_convention {α : Type u} (reg : Registry α)
    (e t l : PhaseFn α) (hE : reg "Extract" = some e)
    (hT : reg "Transform" = some t) (hL : reg "Load" = some l)
    (he : e none = none) :
    (t none = none →
      run reg = ([⟨"Extract", none⟩, ⟨"Transform", none⟩, ⟨"Load", none⟩],
        .ok (l none))) ∧
    (∀ v, t none = some v →
      run reg = ([⟨"Extract", none⟩, ⟨"Transform", none⟩,
          ⟨"Load", some (some v)⟩],
        .ok (l (some (some v))))) := by
  constructor
  · intro ht
    show runFrom reg ["Extract", "Transform", "Load"] none [] = _
    rw [runFrom_step_none _ _ _ _ _ hE, he, runFrom_step_none _ _ _ _ _ hT, ht,
        runFrom_step_none _ _ _ _ _ hL, runFrom_nil]
    rfl
  · intro v ht
    show runFrom reg ["Extract", "Transform", "Load"] none [] = _
    rw [runFrom_step_none _ _ _ _ _ hE, he, runFrom_step_none _ _ _ _ _ hT, ht,
        runFrom_step_some _ _ _ _ _ _ hL, runFrom_nil]
    rfl

/-- Witness for C10 at a concrete registry whose Extract and Transform
units return `None`: both later phases are invoked with no arguments. -/
theorem executor_call_convention_witness :
    run regNone = ([⟨"Extract", none⟩, ⟨"Transform", none⟩, ⟨"Load", none⟩],
      .ok (some 5)) :=
  (executor_call_convention regNone wENone wTNone wLFive rfl rfl rfl rfl).1 rfl

/-! ## Record lemmas -/

/-- Key presence in a record split at its head entry. -/
theorem hasKey_cons (p : String × PyVal) (rest : List (String × PyVal))
    (k : String) :
    hasKey (p :: rest : Record) k = (decide (p.1 = k) || hasKey rest k) := by
  simp [hasKey]

/-- Key lookup in a record split at its head entry. -/
theorem getD_cons (p : String × PyVal) (rest : List (String × PyVal))
    (k : String) :
    getD (p :: rest : Record) k = if p.1 = k then p.2 else getD rest k := by
  unfold getD
  by_cases h : p.1 = k
  · rw [if_pos h, List.find?_cons_of_pos _ (by simpa using h)]
    rfl
  · rw [if_neg h, List.find?_cons_of_neg _ (by simpa using h)]

/-- Replacing the value under one key changes no key's presence. -/
theorem hasKey_setVal (r : Record) (k : String) (v : PyVal) (k2 : String) :
    hasKey (setVal r k v) k2 = hasKey r k2 := by
  induction r with
  | nil => rfl
  | cons p rest ih =>
    show hasKey (if p.1 = k then (k, v) :: rest else p :: setVal rest k v) k2 =
      hasKey (p :: rest : Record) k2
    by_cases h : p.1 = k
    · rw [if_pos h, hasKey_cons, hasKey_cons, h]
    · rw [if_neg h, hasKey_cons, hasKey_cons, ih]

/-- Replacing the value under one key leaves lookups of other keys
unchanged. -/
theorem getD_setVal_ne (r : Record) (k : String) (v : PyVal) (k2 : String)
    (h : k ≠ k2) : getD (setVal r k v) k2 = getD r k2 := by
  induction r with
  | nil => rfl
  | cons p rest ih =>
    show getD (if p.1 = k then (k, v) :: rest else p :: setVal rest k v) k2 =
      getD (p :: rest : Record) k2
    by_cases hp : p.1 = k
    · rw [if_pos hp, getD_cons, getD_cons,
          if_neg (show ¬ (((k, v) : String × PyVal).1 = k2) from h),
          if_neg (show ¬ (p.1 = k2) from fun hh => h (hp ▸ hh))]
    · rw [if_neg hp, getD_cons, getD_cons, ih]

/-- The `column2` cleaning step changes no key's presence. -/
theorem cleanColumn2_hasKey (r : Record) (k2 : String) :
    hasKey (cleanColumn2 r) k2 = hasKey r k2 := by
  unfold cleanColumn2
  split
  · rw [hasKey_setVal]
  · rfl

/-- The `column2` cleaning step leaves other fields unchanged. -/
theorem cleanColumn2_getD (r : Record) (k2 : String) (h : k2 ≠ "column2") :
    getD (cleanColumn2 r) k2 = getD r k2 := by
  unfold cleanColumn2
  split
  · rw [getD_setVal_ne _ _ _ _ (fun hh => h hh.symm)]
  · rfl

/-- The `column3` cleaning step changes no key's presence. -/
theorem cleanColumn3_hasKey (r : Record) (k2 : String) :
    hasKey (cleanColumn3 r) k2 = hasKey r k2 := by
  unfold cleanColumn3
  split
  · split
    · rw [hasKey_setVal]
    · split
      · split
        · rw [hasKey_setVal]
        · split
          · rw [hasKey_setVal]
          · rfl
      · rfl
  · rfl

/-- The `column3` cleaning step leaves other fields unchanged. -/
theorem cleanColumn3_getD (r : Record) (k2 : String) (h : k2 ≠ "column3") :
    getD (cleanColumn3 r) k2 = getD r k2 := by
  have h2 : ("column3" : String) ≠ k2 := fun hh => h hh.symm
  unfold cleanColumn3
  split
  · split
    · rw [getD_setVal_ne _ _ _ _ h2]
    · split
      · split
        · rw [getD_setVal_ne _ _ _ _ h2]
        · split
          · rw [getD_setVal_ne _ _ _ _ h2]
          · rfl
      · rfl
  · rfl

/-- Filtering a record at its head entry. -/
theorem filterKeys_cons (p : String × PyVal) (rest : List (String × PyVal)) :
    filterKeys (p :: rest : Record) =
      if recordKeys.contains p.1 = true then
        (p :: filterKeys rest : Record)
      else filterKeys rest := by
  show List.filter _ (p :: rest) = _
  rw [List.filter_cons]
  rfl

/-- Filtering to the pydantic keys preserves the presence of a kept key. -/
theorem filterKeys_hasKey (r : Record) (k : String)
    (hk : recordKeys.contains k = true) :
    hasKey (filterKeys r) k = hasKey r k := by
  induction r with
  | nil => rfl
  | cons p rest ih =>
    rw [filterKeys_cons]
    by_cases hp : recordKeys.contains p.1 = true
    · rw [if_pos hp, hasKey_cons, hasKey_cons, ih]
    · rw [if_neg hp, ih, hasKey_cons,
          decide_eq_false (fun hh : p.1 = k => hp (hh ▸ hk)), Bool.false_or]

/-- Filtering to the pydantic keys preserves the lookup of a kept key. -/
theorem filterKeys_getD (r : Record) (k : String)
    (hk : recordKeys.contains k = true) :
    getD (filterKeys r) k = getD r k := by
  induction r with
  | nil => rfl
  | cons p rest ih =>
    rw [filterKeys_cons]
    by_cases hp : recordKeys.contains p.1 = true
    · rw [if_pos hp, getD_cons, getD_cons, ih]
    · rw [if_neg hp, ih, getD_cons,
          if_neg (fun hh : p.1 = k => hp (hh ▸ hk))]

/-- A missing (`None` or nan) `column1` cell fails the `SourceRecord`
string constraint. -/
theorem column1Ok_isna (v : PyVal) (h : isna v = true) :
    column1Ok v = false := by
  cases v <;> simp_all [isna, column1Ok]

/-- A record dict whose `column1` is missing (`None` or nan) fails the
`SourceRecord` validation. -/
theorem sourceRecordOk_isna_column1 (d : Record) (now : ℤ)
    (h : isna (getD d "column1") = true) :
    sourceRecordOk d now = false := by
  unfold sourceRecordOk
  rw [column1Ok_isna _ h]
  simp

/-- Evaluation rule for `validate_and_clean_row` once the required-field
flag and the pydantic outcome are known. -/
theorem vacr_cases (row : Record) (inv : List Nat) (i : Nat) (now : ℤ)
    (flag : Bool)
    (hflag : (hasKey row "column1" && isna (getD row "column1")) = flag)
    (dictOk : Bool)
    (hdict : (if (hasKey (cleanColumn3 (cleanColumn2 row)) "id" &&
          hasKey (cleanColumn3 (cleanColumn2 row)) "column1") = true
        then sourceRecordOk (filterKeys (cleanColumn3 (cleanColumn2 row))) now
        else true) = dictOk) :
    validate_and_clean_row row inv i now =
      ((!flag && dictOk,
        if (!flag && dictOk) = true then some (cleanColumn3 (cleanColumn2 row))
        else none),
       if dictOk = true then (if flag = true then inv ++ [i] else inv)
       else (if flag = true then inv ++ [i] else inv) ++ [i]) := by
  subst hflag
  subst hdict
  rfl

/-- Claim C3 (code-bug evidence): a single-row batch whose row has a
present-but-nan required `column1` gets its index appended to
`invalid_rows` twice — once by the required-field check and once by the
pydantic check — so the accepted count plus the rejected count is 2 for a
batch of 1 record, and the rejected-index sequence `[0, 0]` is not
strictly increasing. -/
theorem classify_double_count_eval :
    classifyRows batchNanColumn1 0 = ([], [0, 0]) ∧
    (classifyRows batchNanColumn1 0).1.length +
        (classifyRows batchNanColumn1 0).2.length ≠ batchNanColumn1.length ∧
    ¬ List.Chain' (fun a b : Nat => a < b) [0, 0] := by
  refine ⟨by decide, by decide, fun h => ?_⟩
  exact absurd (List.chain'_cons.mp h).1 (lt_irrefl 0)

/-- Claim C4 (counterexample): the record with `id = 1`,
`column1 = "OK"` and `column3 = -5000` is otherwise valid and has a
negative numeric value, yet `validate_and_clean_row` rejects it (the
cleaner stores `abs(-5000) = 5000`, which the post-clean model range check
then refuses), contradicting the claim that a record is never rejected for
an out-of-range numeric value and that the output record carries
`abs(v)`. -/
theorem cleaner_out_of_range_reject_cex :
    validate_and_clean_row (mkRow 1 "OK" (-5000)) [] 0 0 = ((false, none), [0]) ∧
    validate_and_clean_row (mkRow 1 "OK" (-5000)) [] 0 0 ≠
      ((true, some (mkRowVal 1 "OK" (.pyFloat 5000))), []) := by
  decide

/-- Claim C4 (amended): for an otherwise-valid record with numeric field
value `v`, a negative `v` is replaced by `abs v` and a `v` above the 1000
ceiling is capped at 1000, and in both of those cases the record is
accepted, not rejected — provided `abs v` itself stays within the model
ceiling (`-1000 ≤ v`).  For `v < -1000` the elif chain does not re-cap
`abs v`, the post-clean model validation fails, and the record is
rejected. -/
theorem cleaner_clamps (n : ℤ) (s : String) (q : ℚ) (inv : List Nat)
    (i : Nat) (now : ℤ) (hn : 0 < n) (hs : column1Ok (.pyStr s) = true) :
    (q < 0 → -1000 ≤ q →
      validate_and_clean_row (mkRow n s q) inv i now =
        ((true, some (mkRowVal n s (.pyFloat |q|))), inv)) ∧
    (1000 < q →
      validate_and_clean_row (mkRow n s q) inv i now =
        ((true, some (mkRowVal n s (.pyInt 1000))), inv)) ∧
    (q < -1000 →
      validate_and_clean_row (mkRow n s q) inv i now =
        ((false, none), inv ++ [i])) := by
  have hc3 : cleanColumn3 (cleanColumn2 (mkRow n s q)) =
      (if q < 0 then mkRowVal n s (.pyFloat |q|)
       else if 1000 < q then mkRowVal n s (.pyInt 1000)
       else mkRow n s q) := rfl
  refine ⟨?_, ?_, ?_⟩
  · intro hq hq2
    have hcl : cleanColumn3 (cleanColumn2 (mkRow n s q)) =
        mkRowVal n s (.pyFloat |q|) := by
      rw [hc3, if_pos hq]
    have h0 : (0 : ℚ) ≤ |q| := abs_nonneg q
    have h1000 : |q| ≤ 1000 := by
      rw [abs_of_neg hq]
      linarith
    have hsrc : sourceRecordOk (mkRowVal n s (.pyFloat |q|)) now = true := by
      unfold sourceRecordOk idOk column2Ok column3Ok createdAtOk
      simp [mkRowVal, hasKey, getD, hs, hn, h0, h1000]
    have hdict : (if (hasKey (cleanColumn3 (cleanColumn2 (mkRow n s q))) "id" &&
          hasKey (cleanColumn3 (cleanColumn2 (mkRow n s q))) "column1") = true
        then sourceRecordOk
          (filterKeys (cleanColumn3 (cleanColumn2 (mkRow n s q)))) now
        else true) = true := by
      rw [hcl]
      exact hsrc
    rw [vacr_cases (mkRow n s q) inv i now false rfl true hdict, hcl]
    simp
  · intro hq
    have hcl : cleanColumn3 (cleanColumn2 (mkRow n s q)) =
        mkRowVal n s (.pyInt 1000) := by
      rw [hc3, if_neg (by linarith : ¬ q < 0), if_pos hq]
    have hsrc : sourceRecordOk (mkRowVal n s (.pyInt 1000)) now = true := by
      unfold sourceRecordOk idOk column2Ok column3Ok createdAtOk
      simp [mkRowVal, hasKey, getD, hs, hn]
    have hdict : (if (hasKey (cleanColumn3 (cleanColumn2 (mkRow n s q))) "id" &&
          hasKey (cleanColumn3 (cleanColumn2 (mkRow n s q))) "column1") = true
        then sourceRecordOk
          (filterKeys (cleanColumn3 (cleanColumn2 (mkRow n s q)))) now
        else true) = true := by
      rw [hcl]
      exact hsrc
    rw [vacr_cases (mkRow n s q) inv i now false rfl true hdict, hcl]
    simp
  · intro hq
    have hcl : cleanColumn3 (cleanColumn2 (mkRow n s q)) =
        mkRowVal n s (.pyFloat |q|) := by
      rw [hc3, if_pos (by linarith : q < 0)]
    have h1000 : ¬ (|q| ≤ 1000) := by
      rw [abs_of_neg (by linarith : q < 0)]
      intro h
      linarith
    have hsrc : sourceRecordOk (mkRowVal n s (.pyFloat |q|)) now = false := by
      unfold sourceRecordOk idOk column2Ok column3Ok createdAtOk
      simp [mkRowVal, hasKey, getD, h1000]
    have hdict : (if (hasKey (cleanColumn3 (cleanColumn2 (mkRow n s q))) "id" &&
          hasKey (cleanColumn3 (cleanColumn2 (mkRow n s q))) "column1") = true
        then sourceRecordOk
          (filterKeys (cleanColumn3 (cleanColumn2 (mkRow n s q)))) now
        else true) = false := by
      rw [hcl]
      exact hsrc
    rw [vacr_cases (mkRow n s q) inv i now false rfl false hdict]
    simp

/-- Witness for the amended C4 at the concrete values `-5` (negative,
within the ceiling after `abs`), `4000` (above the ceiling) and `-4000`
(below `-1000`, rejected). -/
theorem cleaner_clamps_witness :
    validate_and_clean_row (mkRow 1 "OK" (-5)) [] 0 0 =
      ((true, some (mkRowVal 1 "OK" (.pyFloat 5))), []) ∧
    validate_and_clean_row (mkRow 1 "OK" 4000) [] 0 0 =
      ((true, some (mkRowVal 1 "OK" (.pyInt 1000))), []) ∧
    validate_and_clean_row (mkRow 1 "OK" (-4000)) [] 0 0 =
      ((false, none), [0]) := by
  have h1 := (cleaner_clamps 1 "OK" (-5) [] 0 0 (by decide) (by decide)).1
    (by norm_num) (by norm_num)
  have h2 := (cleaner_clamps 1 "OK" 4000 [] 0 0 (by decide) (by decide)).2.1
    (by norm_num)
  have h3 := (cleaner_clamps 1 "OK" (-4000) [] 0 0 (by decide) (by decide)).2.2
    (by norm_num)
  refine ⟨?_, h2, h3⟩
  rw [h1]
  norm_num

/-- Claim C5 (counterexample): a record whose required `column1` key is
entirely absent is accepted by `validate_and_clean_row` — the
required-field check is guarded by key presence and the pydantic check is
skipped when the key is missing — contradicting the claim that every
record missing a required field is rejected. -/
theorem required_absent_accepted_cex :
    validate_and_clean_row rowNoColumn1 [] 0 0 =
      ((true, some rowNoColumn1), []) ∧
    hasKey rowNoColumn1 "column1" = false := by
  decide

/-- Claim C5 (amended): a record whose required `column1` is present but
null (nan) is rejected: `is_valid` ends false and no cleaned row is
returned, but only the row index is recorded (no textual reason), and
processing does not stop at the cleaning stage — when `id` is also
present the record still reaches the model validation, which rejects it
again, appending the index a second time.  A record whose `column1` key is
absent is accepted with nothing recorded. -/
theorem required_null_handling (r : Record) (inv : List Nat) (i : Nat)
    (now : ℤ) :
    (hasKey r "column1" = true → isna (getD r "column1") = true →
      (validate_and_clean_row r inv i now).1 = (false, none) ∧
      (hasKey r "id" = true →
        (validate_and_clean_row r inv i now).2 = inv ++ [i, i]) ∧
      (hasKey r "id" = false →
        (validate_and_clean_row r inv i now).2 = inv ++ [i])) ∧
    (hasKey r "column1" = false →
      (validate_and_clean_row r inv i now).1.1 = true ∧
      (validate_and_clean_row r inv i now).2 = inv) := by
  constructor
  · intro h1 h2
    have hflag : (hasKey r "column1" && isna (getD r "column1")) = true := by
      rw [h1, h2]
      rfl
    have hk1 : hasKey (cleanColumn3 (cleanColumn2 r)) "column1" =
        hasKey r "column1" := by
      rw [cleanColumn3_hasKey, cleanColumn2_hasKey]
    have hkid : hasKey (cleanColumn3 (cleanColumn2 r)) "id" = hasKey r "id" := by
      rw [cleanColumn3_hasKey, cleanColumn2_hasKey]
    cases hid : hasKey r "id" with
    | true =>
      have hguard : (hasKey (cleanColumn3 (cleanColumn2 r)) "id" &&
          hasKey (cleanColumn3 (cleanColumn2 r)) "column1") = true := by
        rw [hk1, hkid, hid, h1]
        rfl
      have hdict : (if (hasKey (cleanColumn3 (cleanColumn2 r)) "id" &&
            hasKey (cleanColumn3 (cleanColumn2 r)) "column1") = true
          then sourceRecordOk (filterKeys (cleanColumn3 (cleanColumn2 r))) now
          else true) = false := by
        rw [if_pos hguard]
        apply sourceRecordOk_isna_column1
        rw [filterKeys_getD _ _ (by decide),
            cleanColumn3_getD _ _ (by decide),
            cleanColumn2_getD _ _ (by decide)]
        exact h2
      have hmain := vacr_cases r inv i now true hflag false hdict
      refine ⟨?_, fun _ => ?_, fun hcontra => ?_⟩
      · rw [hmain]
        rfl
      · rw [hmain]
        simp
      · exact absurd hcontra (by decide)
    | false =>
      have hguard : (hasKey (cleanColumn3 (cleanColumn2 r)) "id" &&
          hasKey (cleanColumn3 (cleanColumn2 r)) "column1") = false := by
        rw [hk1, hkid, hid, h1]
        rfl
      have hdict : (if (hasKey (cleanColumn3 (cleanColumn2 r)) "id" &&
            hasKey (cleanColumn3 (cleanColumn2 r)) "column1") = true
          then sourceRecordOk (filterKeys (cleanColumn3 (cleanColumn2 r))) now
          else true) = true := by
        rw [hguard]
        simp
      have hmain := vacr_cases r inv i now true hflag true hdict
      refine ⟨?_, fun hcontra => ?_, fun _ => ?_⟩
      · rw [hmain]
        rfl
      · exact absurd hcontra (by decide)
      · rw [hmain]
        simp
  · intro h1
    have hflag : (hasKey r "column1" && isna (getD r "column1")) = false := by
      rw [h1]
      rfl
    have hk1 : hasKey (cleanColumn3 (cleanColumn2 r)) "column1" =
        hasKey r "column1" := by
      rw [cleanColumn3_hasKey, cleanColumn2_hasKey]
    have hguard : (hasKey (cleanColumn3 (cleanColumn2 r)) "id" &&
        hasKey (cleanColumn3 (cleanColumn2 r)) "column1") = false := by
      rw [hk1, h1]
      simp
    have hdict : (if (hasKey (cleanColumn3 (cleanColumn2 r)) "id" &&
          hasKey (cleanColumn3 (cleanColumn2 r)) "column1") = true
        then sourceRecordOk (filterKeys (cleanColumn3 (cleanColumn2 r))) now
        else true) = true := by
      rw [hguard]
      simp
    have hmain := vacr_cases r inv i now false hflag true hdict
    constructor
    · rw [hmain]
      rfl
    · rw [hmain]
      rfl

/-- Witness for the amended C5 at the record with `id = 1` and a nan
`column1`: rejected with the index recorded twice. -/
theorem required_null_handling_witness :
    (validate_and_clean_row [("id", PyVal.pyInt 1), ("column1", PyVal.pyNaN)]
        [] 0 0).1 = (false, none) ∧
    (validate_and_clean_row [("id", PyVal.pyInt 1), ("column1", PyVal.pyNaN)]
        [] 0 0).2 = [0, 0] := by
  have h := (required_null_handling
    [("id", PyVal.pyInt 1), ("column1", PyVal.pyNaN)] [] 0 0).1
    (by decide) (by decide)
  refine ⟨h.1, ?_⟩
  rw [h.2.1 (by decide)]
  rfl

/-- Claim C9 (counterexample): the `SourceRecord` validation reads the
wall clock (`datetime.now()` in `check_created_at_not_future`), so calling
it twice on the same unmodified record at two different instants can
yield different outcomes: a record with `created_at = 10` is invalid when
the clock reads 5 and valid when it reads 20. -/
theorem validator_clock_dependence_cex :
    sourceRecordOk rowC9 5 = false ∧ sourceRecordOk rowC9 20 = true := by
  decide

/-- Claim C9 (amended): the validators are pure in the record — neither
mutates its input, and `validate_transformed_row` (which reads no clock)
is unconditionally idempotent; the `SourceRecord` validation is idempotent
across two calls provided the two wall-clock readings do not straddle the
record's `created_at` timestamp (in particular, always, when `created_at`
is absent, null, or not in the future of the first call). -/
theorem validator_idempotent_modulo_clock (r : Record) (n1 n2 : ℤ)
    (h12 : n1 ≤ n2)
    (hts : ∀ t, getD r "created_at" = .pyTime t → t ≤ n1 ∨ n2 < t) :
    sourceRecordOk r n1 = sourceRecordOk r n2 ∧
    validate_transformed_row r = validate_transformed_row r := by
  refine ⟨?_, rfl⟩
  have hca : createdAtOk r n1 = createdAtOk r n2 := by
    unfold createdAtOk
    split
    · cases hv : getD r "created_at" with
      | pyTime t =>
        show decide (t ≤ n1) = decide (t ≤ n2)
        rcases hts t hv with h | h
        · rw [decide_eq_true h, decide_eq_true (le_trans h h12)]
        · rw [decide_eq_false (not_le.mpr (lt_of_le_of_lt h12 h)),
              decide_eq_false (not_le.mpr h)]
      | pyNone => rfl
      | pyNaN => rfl
      | pyInt n => rfl
      | pyFloat q => rfl
      | pyStr s => rfl
    · rfl
  unfold sourceRecordOk
  rw [hca]

/-- Witness for the amended C9: at instants 12 and 20, both past the
record's `created_at = 10`, the outcomes agree. -/
theorem validator_idempotent_modulo_clock_witness :
    sourceRecordOk rowC9 12 = sourceRecordOk rowC9 20 ∧
    validate_transformed_row rowC9 = validate_transformed_row rowC9 :=
  validator_idempotent_modulo_clock rowC9 12 20 (by decide)
    (fun t ht => by
      left
      have h10 : PyVal.pyTime 10 = PyVal.pyTime t := ht
      cases h10
      decide)

/-! ## Loader lemmas and claims -/

/-- Claim C6 (counterexample): with a one-record accepted batch and a
destination where every operation succeeds, the bulk write succeeds and
yet the per-record ORM path still runs — it truncates and rewrites the
dependent detail table (replacing the pre-existing row) and re-inserts
the record — and the returned dict has `records_processed` and
`records_with_errors` keys rather than an immediate
`records_succeeded`-style return, contradicting the claim that the
fallback path is entered only if the bulk path fails. -/
theorem bulk_success_still_runs_orm_cex :
    save_data_to_target [recLoad] envAllOk dbOld 0 =
      .ok ({ target_table := [recLoad, tgtLoad],
             target_detail := ["Category: low"] },
           { success := true, records_processed := some 1,
             records_with_errors := some 0, target_instances := some 1,
             detail_instances := some 1 }) ∧
    envAllOk.bulkOk = true ∧
    ["Category: low"] ≠ dbOld.target_detail := by
  refine ⟨rfl, rfl, by decide⟩

/-- Claim C6 (amended): the per-record ORM path runs on every nonempty
batch regardless of bulk success; when the bulk write and the whole ORM
block succeed, load returns `success = true` with `records_processed`
equal to the number of structurally valid records and
`records_with_errors` equal to the number of structurally invalid ones,
and the destination ends with the bulk-written rows followed by the ORM
re-inserts. -/
theorem orm_path_always_runs (data : List Record) (env : LoadEnv) (db : DB)
    (now : ℤ) (ts : List Record) (ds : List String)
    (hne : data ≠ []) (hbulk : env.bulkOk = true)
    (h1 : env.failTruncate = false) (h2 : env.failCommitTruncate = false)
    (h3 : env.failCommitInsert = false)
    (hbuild : buildInstances (partitionRecords data).1 now = .ok (ts, ds)) :
    save_data_to_target data env db now =
      .ok ({ target_table := data ++ ts, target_detail := ds },
        { success := true,
          records_processed := some (partitionRecords data).1.length,
          records_with_errors := some (partitionRecords data).2.length,
          target_instances := some ts.length,
          detail_instances := some ds.length }) := by
  have hemp : data.isEmpty = false := by
    cases data with
    | nil => exact absurd rfl hne
    | cons a as => rfl
  simp only [save_data_to_target, ormBlock, hemp, hbulk, h1, h2, h3, hbuild]
  simp

/-- Witness for the amended C6 at the concrete one-record batch. -/
theorem orm_path_always_runs_witness :
    save_data_to_target [recLoad] envAllOk dbOld 0 =
      .ok ({ target_table := [recLoad] ++ [tgtLoad],
             target_detail := ["Category: low"] },
        { success := true,
          records_processed := some (partitionRecords [recLoad]).1.length,
          records_with_errors := some (partitionRecords [recLoad]).2.length,
          target_instances := some 1, detail_instances := some 1 }) :=
  orm_path_always_runs [recLoad] envAllOk dbOld 0 [tgtLoad] ["Category: low"]
    (by decide) rfl rfl rfl rfl rfl

/-- Claim C7: when the ORM session block raises (for example the
destination is unreachable at the truncate, a commit, or an instance
build), `save_data_to_target` catches the exception and returns a dict
with `success = false` as a value — `.ok` in the embedding, meaning a
normal Python return rather than a propagated exception — carrying the
per-record accounting gathered before the failure. -/
theorem load_failure_returned_as_value (data : List Record) (env : LoadEnv)
    (db db2 : DB) (now : ℤ) (e : String) (hne : data ≠ [])
    (horm : ormBlock (partitionRecords data).1 env
        (if env.bulkOk then { db with target_table := data } else db) now =
        (db2, .error e)) :
    save_data_to_target data env db now =
      .ok (db2,
        { success := false, error := some e,
          records_processed := some (partitionRecords data).1.length,
          records_with_errors := some (partitionRecords data).2.length }) := by
  have hemp : data.isEmpty = false := by
    cases data with
    | nil => exact absurd rfl hne
    | cons a as => rfl
  unfold save_data_to_target
  rw [hemp]
  simp only [Bool.false_eq_true, if_false, horm]

/-- Witness for C7: the session block fails at the truncate and the load
outcome is returned as a `success = false` value. -/
theorem load_failure_returned_as_value_witness :
    save_data_to_target [recLoad] envTruncateFail dbOld 0 =
      .ok (dbOld,
        { success := false, error := some "truncate failed",
          records_processed := some (partitionRecords [recLoad]).1.length,
          records_with_errors := some (partitionRecords [recLoad]).2.length }) :=
  load_failure_returned_as_value [recLoad] envTruncateFail dbOld dbOld 0
    "truncate failed" (by decide) rfl

/-- Claim C8 (counterexample): with the destination initially holding one
dependent detail row, a batch whose build succeeds, and the final insert
commit failing, the destination ends with the detail table empty — the
truncate was committed in its own transaction before the writes — which
is neither the original detail table nor the fully written one: the
clear-then-write sequence is not inside one transaction scope, and a
mid-sequence failure leaves half-done dependent state. -/
theorem truncate_commit_split_cex :
    save_data_to_target [recLoad] envInsertFail dbOld 0 =
      .ok ({ target_table := [], target_detail := [] },
        { success := false, error := some "commit failed",
          records_processed := some 1, records_with_errors := some 0 }) ∧
    ([] : List String) ≠ dbOld.target_detail ∧
    ([] : List String) ≠ ["Category: low"] := by
  refine ⟨rfl, by decide, by decide⟩

/-- Evolution of the durable dependent table across the ORM session
block: untouched if the block fails at or before the truncate commit;
empty (cleared but unwritten) if it fails after; exactly the built
details on success. -/
theorem ormBlock_detail_evolution (valid : List Record) (env : LoadEnv)
    (db : DB) (now : ℤ) :
    ((env.failTruncate = true ∨ env.failCommitTruncate = true) →
      (ormBlock valid env db now).1.target_detail = db.target_detail) ∧
    (env.failTruncate = false → env.failCommitTruncate = false →
      ((∀ e, buildInstances valid now = .error e →
          (ormBlock valid env db now).1.target_detail = []) ∧
       (env.failCommitInsert = true →
          (ormBlock valid env db now).1.target_detail = []) ∧
       (∀ ts ds, buildInstances valid now = .ok (ts, ds) →
          env.failCommitInsert = false →
          (ormBlock valid env db now).1.target_detail = ds))) := by
  constructor
  · intro h
    unfold ormBlock
    rcases h with h | h
    · rw [h]
      simp
    · rw [h]
      cases henv : env.failTruncate <;> simp
  · intro h1 h2
    refine ⟨?_, ?_, ?_⟩
    · intro e he
      unfold ormBlock
      rw [h1, h2, he]
      simp
    · intro h3
      unfold ormBlock
      rw [h1, h2, h3]
      cases hb : buildInstances valid now with
      | error e => simp
      | ok p =>
        cases p with
        | mk ts ds => simp
    · intro ts ds hb h3
      unfold ormBlock
      rw [h1, h2, hb, h3]
      simp

/-- Claim C8 (amended): the with-block does release the session on every
exit, but the truncate of the dependent table is committed in its own
transaction before the per-record writes: whenever the block fails at or
before that first commit the dependent table is untouched; whenever it
fails after (instance build error or final commit failure) the dependent
table is left cleared with nothing written; only on full success does it
hold exactly the newly built detail rows (so duplicates never occur, but
a cleared-but-unwritten half state does). -/
theorem fallback_not_single_transaction (data : List Record) (env : LoadEnv)
    (db : DB) (now : ℤ) (dbRes : DB) (res : LoadResult) (hne : data ≠ [])
    (hsave : save_data_to_target data env db now = .ok (dbRes, res)) :
    ((env.failTruncate = true ∨ env.failCommitTruncate = true) →
      dbRes.target_detail = db.target_detail) ∧
    (env.failTruncate = false → env.failCommitTruncate = false →
      ((∀ e, buildInstances (partitionRecords data).1 now = .error e →
          dbRes.target_detail = []) ∧
       (env.failCommitInsert = true → dbRes.target_detail = []) ∧
       (∀ ts ds, buildInstances (partitionRecords data).1 now = .ok (ts, ds) →
          env.failCommitInsert = false → dbRes.target_detail = ds))) := by
  have hemp : data.isEmpty = false := by
    cases data with
    | nil => exact absurd rfl hne
    | cons a as => rfl
  set db1 := if env.bulkOk then { db with target_table := data } else db with hdb1
  have hdb1detail : db1.target_detail = db.target_detail := by
    rw [hdb1]
    cases env.bulkOk <;> rfl
  have hres : dbRes = (ormBlock (partitionRecords data).1 env db1 now).1 := by
    unfold save_data_to_target at hsave
    rw [hemp] at hsave
    simp only [Bool.false_eq_true, if_false, ← hdb1] at hsave
    cases horm : (ormBlock (partitionRecords data).1 env db1 now).2 with
    | error e =>
      rw [horm] at hsave
      simp only [Except.ok.injEq, Prod.mk.injEq] at hsave
      exact hsave.1.symm
    | ok p =>
      cases p with
      | mk nt nd =>
        rw [horm] at hsave
        simp only [Except.ok.injEq, Prod.mk.injEq] at hsave
        exact hsave.1.symm
  have h := ormBlock_detail_evolution (partitionRecords data).1 env db1 now
  rw [hres]
  constructor
  · intro hf
    rw [h.1 hf, hdb1detail]
  · intro h1 h2
    exact h.2 h1 h2

/-- Witness for the amended C8: under an insert-commit failure the load
returns normally and the durable dependent table is the cleared one. -/
theorem fallback_not_single_transaction_witness :
    save_data_to_target [recLoad] envInsertFail dbOld 0 =
      .ok ({ target_table := [], target_detail := [] },
        { success := false, error := some "commit failed",
          records_processed := some 1, records_with_errors := some 0 }) ∧
    ({ target_table := [], target_detail := [] } : DB).target_detail = [] :=
  ⟨rfl,
   ((fallback_not_single_transaction [recLoad] envInsertFail dbOld 0
      { target_table := [], target_detail := [] }
      { success := false, error := some "commit failed",
        records_processed := some 1, records_with_errors := some 0 }
      (by decide) rfl).2 rfl rfl).2.1 rfl⟩

end Migkit
